import Mathlib

/-!
Verification development for the product catalog service
(authoritative Postgres store + Redis write-through cache).

The Go sources are shallowly embedded: pure functions become Lean
functions; calls to abstract collaborators (the cache repository, the
product repository) become explicit result parameters, mirroring how the
repository's own unit tests drive the use cases through mocks; machine
integers are modelled as `Int`/`Nat` (Go `int` stock, version and
pagination parameters never approach 2^63 in this domain); Go runtime
panics are modelled by `Option` (`none` = panic); fallible collaborator
calls by `Except`.
-/

namespace ProductCatalog

/-! ## Go string helpers (strings.TrimSpace, strings.ToLower)

Restricted to ASCII: `TrimSpace` drops the ASCII whitespace characters
and `ToLower` folds `A`..`Z`; this agrees with Go on all ASCII input,
which is the domain exercised throughout. -/

def isGoSpace (c : Char) : Bool :=
  c = ' ' || c = '\t' || c = '\n' || c = '\r' || c = '\x0b' || c = '\x0c'

def goTrimSpace (s : String) : String :=
  String.mk (((s.data.dropWhile isGoSpace).reverse.dropWhile isGoSpace).reverse)

def asciiLower (c : Char) : Char :=
  if 'A' ≤ c && c ≤ 'Z' then Char.ofNat (c.toNat + 32) else c

def goToLower (s : String) : String :=
  String.mk (s.data.map asciiLower)

/-- Normalization used by the identity generator and the cache key
generator: trim surrounding whitespace, then fold case. -/
def normalize (s : String) : String :=
  goToLower (goTrimSpace s)

/-- UTF-8 encoding of one unicode scalar value, as Go produces for
`[]byte(string)`. -/
def utf8EncodeChar (c : Char) : List Nat :=
  let n := c.toNat
  if n < 0x80 then [n]
  else if n < 0x800 then
    [0xC0 ||| (n >>> 6), 0x80 ||| (n &&& 0x3F)]
  else if n < 0x10000 then
    [0xE0 ||| (n >>> 12), 0x80 ||| ((n >>> 6) &&& 0x3F), 0x80 ||| (n &&& 0x3F)]
  else
    [0xF0 ||| (n >>> 18), 0x80 ||| ((n >>> 12) &&& 0x3F),
     0x80 ||| ((n >>> 6) &&& 0x3F), 0x80 ||| (n &&& 0x3F)]

def utf8Bytes (s : String) : List Nat :=
  s.data.foldr (fun c acc => utf8EncodeChar c ++ acc) []

/-! ## SHA-256 (crypto/sha256.Sum256), over byte lists, 32-bit words as
`Nat` reduced mod 2^32. -/

def w32 (n : Nat) : Nat := n % 4294967296

def rotr32 (n x : Nat) : Nat := w32 ((x >>> n) ||| (x <<< (32 - n)))

def bsig0 (x : Nat) : Nat := (rotr32 2 x) ^^^ (rotr32 13 x) ^^^ (rotr32 22 x)

def bsig1 (x : Nat) : Nat := (rotr32 6 x) ^^^ (rotr32 11 x) ^^^ (rotr32 25 x)

def ssig0 (x : Nat) : Nat := (rotr32 7 x) ^^^ (rotr32 18 x) ^^^ (x >>> 3)

def ssig1 (x : Nat) : Nat := (rotr32 17 x) ^^^ (rotr32 19 x) ^^^ (x >>> 10)

def chFn (x y z : Nat) : Nat := (x &&& y) ^^^ ((x ^^^ 0xFFFFFFFF) &&& z)

def majFn (x y z : Nat) : Nat := (x &&& y) ^^^ (x &&& z) ^^^ (y &&& z)

def sha256K : List Nat :=
  [1116352408, 1899447441, 3049323471, 3921009573, 961987163,
   1508970993, 2453635748, 2870763221, 3624381080, 310598401,
   607225278, 1426881987, 1925078388, 2162078206, 2614888103,
   3248222580, 3835390401, 4022224774, 264347078, 604807628,
   770255983, 1249150122, 1555081692, 1996064986, 2554220882,
   2821834349, 2952996808, 3210313671, 3336571891, 3584528711,
   113926993, 338241895, 666307205, 773529912, 1294757372,
   1396182291, 1695183700, 1986661051, 2177026350, 2456956037,
   2730485921, 2820302411, 3259730800, 3345764771, 3516065817,
   3600352804, 4094571909, 275423344, 430227734, 506948616,
   659060556, 883997877, 958139571, 1322822218, 1537002063,
   1747873779, 1955562222, 2024104815, 2227730452, 2361852424,
   2428436474, 2756734187, 3204031479, 3329325298]

def sha256H0 : List Nat :=
  [1779033703, 3144134277, 1013904242, 2773480762,
   1359893119, 2600822924, 528734635, 1541459225]

def be64 (n : Nat) : List Nat :=
  [(n >>> 56) &&& 255, (n >>> 48) &&& 255, (n >>> 40) &&& 255,
   (n >>> 32) &&& 255, (n >>> 24) &&& 255, (n >>> 16) &&& 255,
   (n >>> 8) &&& 255, n &&& 255]

def be32 (n : Nat) : List Nat :=
  [(n >>> 24) &&& 255, (n >>> 16) &&& 255, (n >>> 8) &&& 255, n &&& 255]

def padMessage (msg : List Nat) : List Nat :=
  let l := msg.length
  let z := (119 - (l % 64)) % 64
  msg ++ [0x80] ++ List.replicate z 0 ++ be64 (8 * l)

def toW32s : List Nat → List Nat
  | a :: b :: c :: d :: rest => (((a * 256 + b) * 256 + c) * 256 + d) :: toW32s rest
  | _ => []

def toBlocks16 : List Nat → List (List Nat)
  | w0 :: w1 :: w2 :: w3 :: w4 :: w5 :: w6 :: w7 ::
    w8 :: w9 :: w10 :: w11 :: w12 :: w13 :: w14 :: w15 :: rest =>
      [w0, w1, w2, w3, w4, w5, w6, w7, w8, w9, w10, w11, w12, w13, w14, w15]
        :: toBlocks16 rest
  | _ => []

def stepW (acc : List Nat) : List Nat :=
  let n := acc.length
  let g := fun (i : Nat) => acc.getD (n - i) 0
  acc ++ [w32 (ssig1 (g 2) + g 7 + ssig0 (g 15) + g 16)]

def extendW (w : List Nat) : List Nat :=
  (List.range 48).foldl (fun acc _ => stepW acc) w

def sha256Round (st : List Nat) (kw : Nat × Nat) : List Nat :=
  match st with
  | [a, b, c, d, e, f, g, h] =>
    let t1 := w32 (h + bsig1 e + chFn e f g + kw.1 + kw.2)
    let t2 := w32 (bsig0 a + majFn a b c)
    [w32 (t1 + t2), a, b, c, w32 (d + t1), e, f, g]
  | other => other

def sha256Compress (h : List Nat) (block : List Nat) : List Nat :=
  let ws := extendW block
  let st := (sha256K.zip ws).foldl sha256Round h
  (h.zip st).map (fun p => w32 (p.1 + p.2))

def sha256 (msg : List Nat) : List Nat :=
  let blocks := toBlocks16 (toW32s (padMessage msg))
  let h := blocks.foldl sha256Compress sha256H0
  h.foldr (fun x acc => be32 x ++ acc) []

/-! ## ULID rendering (oklog/ulid).

`ulid.MustNew(0, reader)` builds a 16-byte id: 6 zero timestamp bytes
followed by 10 entropy bytes read from the reader (here: the first 10
bytes of the SHA-256 digest).  `String()` renders the 128-bit value as
26 Crockford base-32 digits, the leading digit carrying the top 3 bits. -/

def crockford : List Char := "0123456789ABCDEFGHJKMNPQRSTVWXYZ".data

def ulidString (bytes : List Nat) : String :=
  let n := bytes.foldl (fun acc b => acc * 256 + b) 0
  String.mk ((List.range 26).map (fun i => crockford.getD ((n >>> (5 * (25 - i))) &&& 31) '0'))

/-- GenerateProductID (entity package): normalize both business
attributes, join with a pipe separator, hash with SHA-256 and render the
first 16 digest bytes through the deterministic-entropy ULID
constructor.  Pure: no randomness, no error path. -/
def GenerateProductID (name referenceNumber : String) : String :=
  let normalizedName := normalize name
  let normalizedRef := normalize referenceNumber
  let seed := normalizedName ++ "|" ++ normalizedRef
  let hash := sha256 (utf8Bytes seed)
  let entropy := hash.take 16
  ulidString (List.replicate 6 0 ++ entropy.take 10)

/-! ## Data model

`specifications` is schema-less in Go (`map[string]interface` over JSON
values): string | number | boolean | null | nested map | nested list.
Numbers are modelled as `Int` (float semantics play no role in any claim
below).  Go's map is modelled as an association list; Go iterates maps
in unspecified order, here fixed to list order. -/

inductive SpecValue where
  | str : String → SpecValue
  | num : Int → SpecValue
  | flag : Bool → SpecValue
  | null : SpecValue
  | obj : List (String × SpecValue) → SpecValue
  | arr : List SpecValue → SpecValue

/-- In Go, values of type `map[string]interface` and `[]interface` are
not comparable with `==`/`!=`; scalars and nil are. -/
def SpecValue.isComparable : SpecValue → Bool
  | .obj _ => false
  | .arr _ => false
  | _ => true

/-- Go `!=` on two interface values: `none` models the runtime panic
that Go raises when the two dynamic types are identical and not
comparable; distinct dynamic types compare unequal without panicking. -/
def goValueNeq : SpecValue → SpecValue → Option Bool
  | .str a, .str b => some (a != b)
  | .num a, .num b => some (a != b)
  | .flag a, .flag b => some (a != b)
  | .null, .null => some false
  | .obj _, .obj _ => none
  | .arr _, .arr _ => none
  | _, _ => some true

structure Product where
  ID : String
  Name : String
  ReferenceNumber : String
  Category : String
  Description : String
  SKU : String
  Brand : String
  Stock : Int
  Images : List String
  Specifications : List (String × SpecValue)
  Version : Int
  CreatedAt : Int
  UpdatedAt : Int

/-- The specifications loop of `Product.Equals`: for each key of the
first map, require the key to exist in the second and the values to
compare equal under Go `!=`; a `none` from `goValueNeq` (panic)
propagates. -/
def specsEqLoop : List (String × SpecValue) → List (String × SpecValue) → Option Bool
  | [], _ => some true
  | (k, v) :: rest, other =>
    match other.lookup k with
    | none => some false
    | some ov =>
      match goValueNeq v ov with
      | none => none
      | some true => some false
      | some false => specsEqLoop rest other

/-- Product.Equals: business equality over name, referenceNumber,
category, description, sku, brand, stock, images and specifications —
id, version and timestamps excluded.  Result is `Option Bool` because
the specifications comparison can panic (`none`). -/
def productEquals (p o : Product) : Option Bool :=
  if p.Name ≠ o.Name ∨ p.ReferenceNumber ≠ o.ReferenceNumber ∨
     p.Category ≠ o.Category ∨ p.Description ≠ o.Description ∨
     p.SKU ≠ o.SKU ∨ p.Brand ≠ o.Brand ∨ p.Stock ≠ o.Stock then
    some false
  else if p.Images ≠ o.Images then
    some false
  else if p.Specifications.length ≠ o.Specifications.length then
    some false
  else
    specsEqLoop p.Specifications o.Specifications

inductive ValErr where
  | invalidName
  | invalidReference
  | invalidCategory
  | invalidStock
deriving DecidableEq

/-- Product.Validate: name, reference and category required (after the
constructor's trimming), stock non-negative; checks in source order. -/
def validateProduct (p : Product) : Option ValErr :=
  if p.Name = "" then some .invalidName
  else if p.ReferenceNumber = "" then some .invalidReference
  else if p.Category = "" then some .invalidCategory
  else if p.Stock < 0 then some .invalidStock
  else none

structure CreateProductInput where
  Name : String
  ReferenceNumber : String
  Category : String
  Description : String
  SKU : String
  Brand : String
  Stock : Int
  Images : List String
  Specifications : List (String × SpecValue)

structure UpdateProductInput where
  Name : String
  Category : String
  Description : String
  SKU : String
  Brand : String
  Stock : Int
  Images : List String
  Specifications : List (String × SpecValue)

/-- entity.NewProduct: trim the textual fields, validate, then fix the
id from the normalized business key; version starts at 1 and both
timestamps are set to the current instant. -/
def NewProduct (i : CreateProductInput) (now : Int) : Except ValErr Product :=
  let p : Product :=
    { ID := ""
      Name := goTrimSpace i.Name
      ReferenceNumber := goTrimSpace i.ReferenceNumber
      Category := goTrimSpace i.Category
      Description := goTrimSpace i.Description
      SKU := goTrimSpace i.SKU
      Brand := goTrimSpace i.Brand
      Stock := i.Stock
      Images := i.Images
      Specifications := i.Specifications
      Version := 1
      CreatedAt := now
      UpdatedAt := now }
  match validateProduct p with
  | some e => .error e
  | none => .ok { p with ID := GenerateProductID p.Name p.ReferenceNumber }

/-- Product.Update applied to a copy: overwrite the mutable fields
(trimmed), refresh updatedAt, increment version.  referenceNumber, id
and createdAt are untouched.  (The use case validates the result
separately, as the source does.) -/
def Product.applyUpdate (p : Product) (i : UpdateProductInput) (now : Int) : Product :=
  { p with
      Name := goTrimSpace i.Name
      Category := goTrimSpace i.Category
      Description := goTrimSpace i.Description
      SKU := goTrimSpace i.SKU
      Brand := goTrimSpace i.Brand
      Stock := i.Stock
      Images := i.Images
      Specifications := i.Specifications
      UpdatedAt := now
      Version := p.Version + 1 }

/-! ## Cache key generator (RedisCacheKeyGenerator) -/

def ProductKey (id : String) : String := "product_" ++ id

def NameKey (name : String) : String := "product_by_name_" ++ normalize name

def CategoryKey (category : String) : String := "product_by_category_" ++ normalize category

def AllProductsKey : String := "all_products"

/-! ## Pagination helper (utils.PaginateProducts)

Translated exactly: an offset at or past the end yields the empty list;
otherwise the end index is clamped to the length and the Go slice
`products[offset:end]` is taken — which panics (`none`) unless
`0 ≤ offset ≤ end`. -/

def PaginateProducts (products : List Product) (limit offset : Int) : Option (List Product) :=
  if offset ≥ (products.length : Int) then some []
  else
    let e := offset + limit
    let e := if e > (products.length : Int) then (products.length : Int) else e
    if 0 ≤ offset ∧ offset ≤ e then
      some ((products.drop offset.toNat).take (e - offset).toNat)
    else none

/-- The pagination contract as the spec words it: the slice from
`offset` of at most `limit` elements, clamped to the list's bounds
(for the non-negative arguments every request carries). -/
def clampedSlice (products : List Product) (limit offset : Int) : List Product :=
  (products.drop offset.toNat).take limit.toNat

/-- ProductHandler.getPagination: limit defaults to 50, accepted only
in 1..100; offset defaults to 0, accepted only when non-negative.  The
argument options stand for present-and-parseable query values. -/
def getPagination (l o : Option Int) : Int × Int :=
  let limit : Int :=
    match l with
    | some v => if 0 < v ∧ v ≤ 100 then v else 50
    | none => 50
  let offset : Int :=
    match o with
    | some v => if 0 ≤ v then v else 0
    | none => 0
  (limit, offset)

/-! ## List / search use cases

The cache repository calls are passed in as results (`Except Unit _`,
the error payload being irrelevant), exactly as the repository's unit
tests drive these use cases through mocks; the authoritative-store
query result is likewise a parameter. -/

/-- ListProductsUseCase.getFromCache: `some ps` is a cache hit; any
GetSet error, empty index, GetMultiple error, or a fetched count below
the requested id count yields a miss. -/
def listGetFromCache (getSetRes : Except Unit (List String))
    (getMultiRes : Except Unit (List Product)) : Option (List Product) :=
  match getSetRes with
  | .error _ => none
  | .ok ids =>
    if ids.length = 0 then none
    else
      match getMultiRes with
      | .error _ => none
      | .ok ps => if ps.length < ids.length then none else some ps

/-- ListProductsUseCase.Execute: on a non-empty cache hit, paginate the
cached set in memory (a `none` models the pagination panic, unreachable
for request-supplied arguments); otherwise return the store's paginated
result. -/
def listExecute (getSetRes : Except Unit (List String))
    (getMultiRes : Except Unit (List Product))
    (dbRes : Except Unit (List Product)) (limit offset : Int) :
    Option (Except Unit (List Product)) :=
  match listGetFromCache getSetRes getMultiRes with
  | some ps =>
    if 0 < ps.length then
      match PaginateProducts ps limit offset with
      | none => none
      | some r => some (.ok r)
    else some dbRes
  | none => some dbRes

/-- SearchProductsByNameUseCase.searchInCache (same shape is shared by
the category search): the empty list doubles as the miss signal. -/
def searchInCache (getSetRes : Except Unit (List String))
    (getMultiRes : Except Unit (List Product)) : List Product :=
  match getSetRes with
  | .error _ => []
  | .ok ids =>
    if ids.length = 0 then []
    else
      match getMultiRes with
      | .error _ => []
      | .ok ps => if ps.length < ids.length then [] else ps

/-- SearchProductsByNameUseCase.Execute. -/
def searchByNameExecute (getSetRes : Except Unit (List String))
    (getMultiRes : Except Unit (List Product))
    (dbRes : Except Unit (List Product)) (limit offset : Int) :
    Option (Except Unit (List Product)) :=
  let products := searchInCache getSetRes getMultiRes
  if 0 < products.length then
    match PaginateProducts products limit offset with
    | none => none
    | some r => some (.ok r)
  else some dbRes

/-! ## Create use case -/

inductive RepoCreateRes where
  | ok
  | alreadyExists
  | failed

inductive CreateErr where
  | invalidData (e : ValErr)
  | alreadyExists
  | saveFailed

/-- CreateProductUseCase.Execute.  `cacheGet` is the idempotency probe
result (`.ok (some p)` = hit, `.ok none` = miss, `.error` = cache
failure, which only logs); `storeCreate` the authoritative store's
answer.  Returns the outcome paired with whether the store `Create`
was invoked (the only store write on this path); `none` models the
panic the business-equality probe can raise. -/
def createExecute (i : CreateProductInput) (now : Int)
    (cacheGet : Except Unit (Option Product)) (storeCreate : RepoCreateRes) :
    Option (Except CreateErr Product × Bool) :=
  match NewProduct i now with
  | .error e => some (.error (.invalidData e), false)
  | .ok product =>
    match cacheGet with
    | .ok (some cached) =>
      match productEquals product cached with
      | none => none
      | some true => some (.ok cached, false)
      | some false => some (.error .alreadyExists, false)
    | _ =>
      match storeCreate with
      | .alreadyExists => some (.error CreateErr.alreadyExists, true)
      | .failed => some (.error .saveFailed, true)
      | .ok => some (.ok product, true)

/-! ## Update use case -/

inductive FetchErr where
  | notFound
  | failed

inductive RepoUpdateRes where
  | ok
  | versionConflict
  | failed

inductive UpdateErr where
  | fetchNotFound
  | fetchFailed
  | invalidData (e : ValErr)
  | versionConflict
  | updateFailed

/-- UpdateProductUseCase.Execute.  `fetch` is getCurrentProduct's
combined cache-then-store result; `storeUpdate` the CAS outcome.  The
second component is the CAS write issued to the store — payload and
expected version — or `none` when no store write was attempted; the
outer `Option` models the panic of the business-equality check. -/
def updateExecute (fetch : Except FetchErr Product) (i : UpdateProductInput)
    (now : Int) (storeUpdate : RepoUpdateRes) :
    Option (Except UpdateErr Product × Option (Product × Int)) :=
  match fetch with
  | .error .notFound => some (.error .fetchNotFound, none)
  | .error .failed => some (.error .fetchFailed, none)
  | .ok current =>
    let expectedVersion := current.Version
    let updated := current.applyUpdate i now
    match validateProduct updated with
    | some e => some (.error (.invalidData e), none)
    | none =>
      match productEquals current updated with
      | none => none
      | some true => some (.ok current, none)
      | some false =>
        match storeUpdate with
        | .versionConflict => some (.error UpdateErr.versionConflict, some (updated, expectedVersion))
        | .failed => some (.error .updateFailed, some (updated, expectedVersion))
        | .ok => some (.ok updated, some (updated, expectedVersion))

/-! ## AuthoritativeStore Update (PostgresProductRepository.Update)

The table is a list of rows with primary key `ID`.  The SQL CAS updates
every row matching `id AND version = expectedVersion`; on zero affected
rows the code runs a follow-up `Exists` query on the same state to
distinguish NotFound from VersionConflict. -/

inductive PgUpdateErr where
  | notFound
  | versionConflict
deriving DecidableEq

/-- The column overwrite the UPDATE statement performs: name, category,
description, sku, brand, stock, images, specifications, version and
updated_at; id, reference_number and created_at keep their values. -/
def pgApplyRow (p r : Product) : Product :=
  { r with
      Name := p.Name
      Category := p.Category
      Description := p.Description
      SKU := p.SKU
      Brand := p.Brand
      Stock := p.Stock
      Images := p.Images
      Specifications := p.Specifications
      Version := p.Version
      UpdatedAt := p.UpdatedAt }

def pgUpdate (db : List Product) (p : Product) (expectedVersion : Int) :
    Except PgUpdateErr (List Product) :=
  let affected := db.countP (fun r => r.ID == p.ID && r.Version == expectedVersion)
  if affected = 0 then
    if db.any (fun r => r.ID == p.ID) then .error .versionConflict
    else .error .notFound
  else
    .ok (db.map (fun r =>
      if r.ID == p.ID && r.Version == expectedVersion then pgApplyRow p r else r))

/-! ## AuthoritativeStore FindByName and the populated-cache search path -/

def isPrefixOfL : List Char → List Char → Bool
  | [], _ => true
  | _ :: _, [] => false
  | a :: as, b :: bs => a == b && isPrefixOfL as bs

def containsSeq (needle hay : List Char) : Bool :=
  match hay with
  | [] => needle.isEmpty
  | _ :: t => isPrefixOfL needle hay || containsSeq needle t

/-- The SQL predicate of FindByName: case-insensitive substring match,
`LOWER(name) LIKE LOWER('%' || q || '%')` (queries free of LIKE
wildcards). -/
def goLikeContains (name q : String) : Bool :=
  containsSeq (goToLower q).data (goToLower name).data

def leChars : List Char → List Char → Bool
  | [], _ => true
  | _ :: _, [] => false
  | a :: as, b :: bs => if a = b then leChars as bs else decide (a < b)

def insertByName (p : Product) : List Product → List Product
  | [] => [p]
  | q :: rest => if leChars p.Name.data q.Name.data then p :: q :: rest else q :: insertByName p rest

/-- ORDER BY name ASC. -/
def sortByName : List Product → List Product
  | [] => []
  | p :: rest => insertByName p (sortByName rest)

/-- PostgresProductRepository.FindByName: filter by case-insensitive
substring, order by name ascending, then OFFSET/LIMIT. -/
def pgFindByName (db : List Product) (name : String) (limit offset : Int) : List Product :=
  ((sortByName (db.filter (fun p => goLikeContains p.Name name))).drop offset.toNat).take limit.toNat

/-- Membership of the name index set `NameKey q` after every product of
`db` has gone through Create's index propagation, which adds each
product's id to the set keyed by its own (already trimmed) name. -/
def nameIndexIds (db : List Product) (q : String) : List String :=
  (db.filter (fun p => NameKey p.Name == NameKey q)).map (fun p => p.ID)

/-- The search-by-name cache path over a fully populated cache: the
index set for the query's key, a complete batch fetch of those ids, and
the store fallback available behind them. -/
def populatedNameSearch (db : List Product) (q : String) (limit offset : Int) :
    Option (Except Unit (List Product)) :=
  let ids := nameIndexIds db q
  let ps := db.filter (fun p => ids.contains p.ID)
  searchByNameExecute (.ok ids) (.ok ps) (.ok (pgFindByName db q limit offset)) limit offset

/-! ## Concrete sample data used to instantiate the theorems -/

def sampleNow : Int := 1700000000

def sampleInput : CreateProductInput :=
  { Name := "iPhone 15"
    ReferenceNumber := "REF-001"
    Category := "Electronics"
    Description := "Latest model"
    SKU := "SKU-1"
    Brand := "Apple"
    Stock := 3
    Images := ["front.png"]
    Specifications := [("color", .str "black")] }

def sampleProduct : Product :=
  { ID := GenerateProductID "iPhone 15" "REF-001"
    Name := "iPhone 15"
    ReferenceNumber := "REF-001"
    Category := "Electronics"
    Description := "Latest model"
    SKU := "SKU-1"
    Brand := "Apple"
    Stock := 3
    Images := ["front.png"]
    Specifications := [("color", .str "black")]
    Version := 1
    CreatedAt := sampleNow
    UpdatedAt := sampleNow }

/-- Same business key as `sampleProduct`, different stock. -/
def sampleStockChanged : Product := { sampleProduct with Stock := 4 }

/-- An update that only changes the stock. -/
def sampleUpdateInput : UpdateProductInput :=
  { Name := "iPhone 15"
    Category := "Electronics"
    Description := "Latest model"
    SKU := "SKU-1"
    Brand := "Apple"
    Stock := 5
    Images := ["front.png"]
    Specifications := [("color", .str "black")] }

/-- An update that repeats every business field of `sampleProduct`. -/
def sampleNoChangeInput : UpdateProductInput :=
  { Name := "iPhone 15"
    Category := "Electronics"
    Description := "Latest model"
    SKU := "SKU-1"
    Brand := "Apple"
    Stock := 3
    Images := ["front.png"]
    Specifications := [("color", .str "black")] }

def nestedSpecInput : CreateProductInput :=
  { Name := "Desk"
    ReferenceNumber := "REF-D1"
    Category := "Furniture"
    Description := ""
    SKU := ""
    Brand := ""
    Stock := 1
    Images := []
    Specifications := [("dims", .obj [("w", .num 3)])] }

/-- A valid product whose specifications hold a nested (non-comparable)
value, as a JSON round trip through the cache produces. -/
def nestedSpecProduct : Product :=
  { ID := GenerateProductID "Desk" "REF-D1"
    Name := "Desk"
    ReferenceNumber := "REF-D1"
    Category := "Furniture"
    Description := ""
    SKU := ""
    Brand := ""
    Stock := 1
    Images := []
    Specifications := [("dims", .obj [("w", .num 3)])]
    Version := 1
    CreatedAt := sampleNow
    UpdatedAt := sampleNow }

/-- Shares the nested-valued key with `nestedSpecProduct` but differs in
name. -/
def nestedSpecOtherName : Product := { nestedSpecProduct with Name := "Other Desk" }

def divPhone : Product :=
  { ID := "id-1"
    Name := "Phone"
    ReferenceNumber := "REF-P1"
    Category := "Accessories"
    Description := ""
    SKU := ""
    Brand := ""
    Stock := 1
    Images := []
    Specifications := []
    Version := 1
    CreatedAt := sampleNow
    UpdatedAt := sampleNow }

def divPhoneCase : Product :=
  { ID := "id-2"
    Name := "Phone Case"
    ReferenceNumber := "REF-P2"
    Category := "Accessories"
    Description := ""
    SKU := ""
    Brand := ""
    Stock := 1
    Images := []
    Specifications := []
    Version := 1
    CreatedAt := sampleNow
    UpdatedAt := sampleNow }

def divWorld : List Product := [divPhone, divPhoneCase]

/-! ## Helper lemmas -/

theorem goValueNeq_self (v : SpecValue) :
    goValueNeq v v = if v.isComparable then some false else none := by
  cases v <;> simp [goValueNeq, SpecValue.isComparable]

theorem lookup_self_of_nodup (l : List (String × SpecValue))
    (h : (l.map Prod.fst).Nodup) :
    ∀ kv ∈ l, l.lookup kv.1 = some kv.2 := by
  induction l with
  | nil => intro kv hkv; cases hkv
  | cons hd tl ih =>
    rw [List.map_cons, List.nodup_cons] at h
    intro kv hkv
    rcases List.mem_cons.mp hkv with hkv | hkv
    · subst hkv
      simp [List.lookup]
    · have hne : kv.1 ≠ hd.1 := by
        intro hcontra
        exact h.1 (List.mem_map.mpr ⟨kv, hkv, hcontra⟩)
      have := ih h.2 kv hkv
      simpa [List.lookup, beq_eq_false_iff_ne.mpr hne] using this

theorem specsEqLoop_none (l full : List (String × SpecValue))
    (hl : ∀ kv ∈ l, full.lookup kv.1 = some kv.2)
    (hex : ∃ kv ∈ l, kv.2.isComparable = false) :
    specsEqLoop l full = none := by
  induction l with
  | nil => rcases hex with ⟨kv, hkv, _⟩; cases hkv
  | cons hd tl ih =>
    obtain ⟨k, v⟩ := hd
    have hlook : full.lookup k = some v := hl ⟨k, v⟩ (by simp)
    by_cases hc : v.isComparable
    · have hrec : specsEqLoop tl full = none := by
        apply ih
        · intro kv hkv; exact hl kv (List.mem_cons_of_mem _ hkv)
        · rcases hex with ⟨kv, hkv, hkvc⟩
          rcases List.mem_cons.mp hkv with hkv | hkv
          · exfalso; rw [hkv] at hkvc; simp only at hkvc; rw [hkvc] at hc; cases hc
          · exact ⟨kv, hkv, hkvc⟩
      simp [specsEqLoop, hlook, goValueNeq_self, hc, hrec]
    · simp [specsEqLoop, hlook, goValueNeq_self, hc]

theorem productEquals_self_none (p : Product)
    (hnd : (p.Specifications.map Prod.fst).Nodup)
    (hex : ∃ kv ∈ p.Specifications, kv.2.isComparable = false) :
    productEquals p p = none := by
  unfold productEquals
  split_ifs with h1 h2 h3
  · simp at h1
  · simp at h2
  · simp at h3
  · exact specsEqLoop_none _ _ (lookup_self_of_nodup _ hnd) hex

theorem productEquals_true_fields (p o : Product)
    (h : productEquals p o = some true) :
    p.Name = o.Name ∧ p.ReferenceNumber = o.ReferenceNumber ∧
    p.Category = o.Category ∧ p.Stock = o.Stock := by
  unfold productEquals at h
  split_ifs at h with h1 h2 h3 <;> try simp at h
  push_neg at h1
  exact ⟨h1.1, h1.2.1, h1.2.2.1, h1.2.2.2.2.2.2⟩

theorem paginate_eq_clamped (ps : List Product) (limit offset : Int)
    (hl : 0 ≤ limit) (ho : 0 ≤ offset) :
    PaginateProducts ps limit offset = some (clampedSlice ps limit offset) := by
  obtain ⟨ln, rfl⟩ : ∃ n : Nat, limit = (n : Int) :=
    ⟨limit.toNat, (Int.toNat_of_nonneg hl).symm⟩
  obtain ⟨offn, rfl⟩ : ∃ n : Nat, offset = (n : Int) :=
    ⟨offset.toNat, (Int.toNat_of_nonneg ho).symm⟩
  have hdl : (ps.drop offn).length = ps.length - offn := List.length_drop offn ps
  unfold PaginateProducts clampedSlice
  simp only [Int.toNat_natCast]
  split_ifs with h1 h2 h3 h4
  · rw [List.drop_eq_nil_of_le (by exact_mod_cast h1), List.take_nil]
  · have he : (((ps.length : Int)) - (offn : Int)).toNat = ps.length - offn := by omega
    rw [he, List.take_of_length_le (le_of_eq hdl),
      List.take_of_length_le (by omega)]
  · exfalso; omega
  · have he : (((offn : Int) + (ln : Int)) - (offn : Int)).toNat = ln := by omega
    rw [he]
  · exfalso; omega

theorem getPagination_bounds (l o : Option Int) :
    1 ≤ (getPagination l o).1 ∧ (getPagination l o).1 ≤ 100 ∧
      0 ≤ (getPagination l o).2 := by
  unfold getPagination
  cases l <;> cases o <;> simp <;> split_ifs <;> omega

/-! ## Claim theorems -/

/-- C1: when the idempotency probe at the derived id hits a cache entry
that is business-equal to the input, CreateProduct returns the cached
product unchanged and performs no write to the authoritative store
(repeated Create with identical business fields is an idempotent
no-op). -/
theorem create_idempotent_noop
    (i : CreateProductInput) (now : Int) (cached p : Product) (sc : RepoCreateRes)
    (hnew : NewProduct i now = .ok p)
    (heq : productEquals p cached = some true) :
    createExecute i now (.ok (some cached)) sc = some (.ok cached, false) := by
  unfold createExecute
  rw [hnew]
  simp [heq]

theorem create_idempotent_noop_witness :
    createExecute sampleInput sampleNow (.ok (some sampleProduct)) RepoCreateRes.ok
      = some (.ok sampleProduct, false) :=
  create_idempotent_noop sampleInput sampleNow sampleProduct sampleProduct
    RepoCreateRes.ok (by rfl) (by rfl)

/-- C2: when the idempotency probe hits a cache entry that is
business-different from the input, CreateProduct fails with
AlreadyExists and performs no write to the authoritative store. -/
theorem create_conflict_no_write
    (i : CreateProductInput) (now : Int) (cached p : Product) (sc : RepoCreateRes)
    (hnew : NewProduct i now = .ok p)
    (heq : productEquals p cached = some false) :
    createExecute i now (.ok (some cached)) sc
      = some (.error CreateErr.alreadyExists, false) := by
  unfold createExecute
  rw [hnew]
  simp [heq]

theorem create_conflict_no_write_witness :
    createExecute sampleInput sampleNow (.ok (some sampleStockChanged)) RepoCreateRes.ok
      = some (.error CreateErr.alreadyExists, false) :=
  create_conflict_no_write sampleInput sampleNow sampleStockChanged sampleProduct
    RepoCreateRes.ok (by rfl) (by rfl)

/-- C3: when the index yields ids but the batch cache fetch returns
fewer products than ids (partial hit), both the list and the
search-by-name use cases discard the cache results entirely and return
the authoritative store's paginated query result. -/
theorem partial_hit_falls_back_to_store
    (ids : List String) (ps : List Product) (dbRes : Except Unit (List Product))
    (limit offset : Int) (hne : ids ≠ []) (hlt : ps.length < ids.length) :
    listExecute (.ok ids) (.ok ps) dbRes limit offset = some dbRes ∧
    searchByNameExecute (.ok ids) (.ok ps) dbRes limit offset = some dbRes := by
  have hlen0 : ids.length ≠ 0 := fun h => hne (List.length_eq_zero.mp h)
  constructor
  · unfold listExecute listGetFromCache
    simp [hlen0, hlt]
  · unfold searchByNameExecute searchInCache
    simp [hlen0, hlt]

theorem partial_hit_falls_back_to_store_witness :
    listExecute (.ok ["a", "b"]) (.ok [sampleProduct]) (.ok []) 50 0 = some (.ok []) ∧
    searchByNameExecute (.ok ["a", "b"]) (.ok [sampleProduct]) (.ok []) 50 0
      = some (.ok []) :=
  partial_hit_falls_back_to_store ["a", "b"] [sampleProduct] (.ok []) 50 0
    (by decide) (by decide)

/-- C4: a successful UpdateProduct that changes at least one business
field (the applied result is business-different from the current
product) issues a CAS write whose payload carries version equal to the
previous version plus exactly 1. -/
theorem update_bumps_version_by_one
    (current : Product) (i : UpdateProductInput) (now : Int)
    (hval : validateProduct (current.applyUpdate i now) = none)
    (hneq : productEquals current (current.applyUpdate i now) = some false) :
    updateExecute (.ok current) i now RepoUpdateRes.ok
      = some (.ok (current.applyUpdate i now),
          some (current.applyUpdate i now, current.Version)) ∧
    (current.applyUpdate i now).Version = current.Version + 1 := by
  constructor
  · unfold updateExecute
    simp [hval, hneq]
  · simp [Product.applyUpdate]

theorem update_bumps_version_by_one_witness :
    updateExecute (.ok sampleProduct) sampleUpdateInput sampleNow RepoUpdateRes.ok
      = some (.ok (sampleProduct.applyUpdate sampleUpdateInput sampleNow),
          some (sampleProduct.applyUpdate sampleUpdateInput sampleNow, sampleProduct.Version)) ∧
    (sampleProduct.applyUpdate sampleUpdateInput sampleNow).Version
      = sampleProduct.Version + 1 :=
  update_bumps_version_by_one sampleProduct sampleUpdateInput sampleNow
    (by rfl) (by rfl)

/-- C5: an UpdateProduct whose applied result is business-equal to the
(valid) current product is a no-op: it returns the current product
unchanged and issues no store write, so the persisted version is
unchanged. -/
theorem update_noop_when_business_equal
    (current : Product) (i : UpdateProductInput) (now : Int) (su : RepoUpdateRes)
    (hcur : validateProduct current = none)
    (heq : productEquals current (current.applyUpdate i now) = some true) :
    updateExecute (.ok current) i now su = some (.ok current, none) := by
  have hf := productEquals_true_fields current (current.applyUpdate i now) heq
  have href : (current.applyUpdate i now).ReferenceNumber = current.ReferenceNumber := rfl
  have hval : validateProduct (current.applyUpdate i now) = none := by
    unfold validateProduct at hcur ⊢
    split_ifs at hcur with h1 h2 h3 h4
    rw [if_neg (by rw [← hf.1]; exact h1), if_neg (by rw [href]; exact h2),
      if_neg (by rw [← hf.2.2.1]; exact h3), if_neg (by rw [← hf.2.2.2]; exact h4)]
  unfold updateExecute
  simp [hval, heq]

theorem update_noop_when_business_equal_witness :
    updateExecute (.ok sampleProduct) sampleNoChangeInput sampleNow RepoUpdateRes.ok
      = some (.ok sampleProduct, none) :=
  update_noop_when_business_equal sampleProduct sampleNoChangeInput sampleNow
    RepoUpdateRes.ok (by rfl) (by rfl)

/-- C6: an authoritative-store Update whose compare-and-swap affects
zero rows reports NotFound when no row carries the id, and
VersionConflict when a row carries the id but not the expected version
(the code distinguishes the two by a follow-up existence check). -/
theorem pg_update_zero_rows_distinguishes
    (db : List Product) (p : Product) (v : Int) :
    ((∀ r ∈ db, r.ID ≠ p.ID) → pgUpdate db p v = .error PgUpdateErr.notFound) ∧
    ((∃ r ∈ db, r.ID = p.ID) → (∀ r ∈ db, r.ID = p.ID → r.Version ≠ v) →
      pgUpdate db p v = .error PgUpdateErr.versionConflict) := by
  constructor
  · intro habs
    have hcnt : db.countP (fun r => r.ID == p.ID && r.Version == v) = 0 := by
      rw [List.countP_eq_zero]
      intro r hr
      simp [habs r hr]
    have hany : db.any (fun r => r.ID == p.ID) = false := by
      rw [List.any_eq_false]
      intro r hr
      simp [habs r hr]
    simp [pgUpdate, hcnt, hany]
  · rintro ⟨r0, hr0, hid0⟩ hver
    have hcnt : db.countP (fun r => r.ID == p.ID && r.Version == v) = 0 := by
      rw [List.countP_eq_zero]
      intro r hr
      by_cases hid : r.ID = p.ID
      · simp [hid, hver r hr hid]
      · simp [hid]
    have hany : db.any (fun r => r.ID == p.ID) = true :=
      List.any_eq_true.mpr ⟨r0, hr0, by simp [hid0]⟩
    simp [pgUpdate, hcnt, hany]

theorem pg_update_zero_rows_distinguishes_witness :
    pgUpdate [] sampleProduct 1 = .error PgUpdateErr.notFound ∧
    pgUpdate [sampleProduct] sampleStockChanged 7
      = .error PgUpdateErr.versionConflict :=
  ⟨(pg_update_zero_rows_distinguishes [] sampleProduct 1).1 (by simp),
   (pg_update_zero_rows_distinguishes [sampleProduct] sampleStockChanged 7).2
     ⟨sampleProduct, by simp, rfl⟩
     (by intro r hr _; rw [List.mem_singleton.mp hr]; decide)⟩

/-- C7: GenerateID is invariant under trim-and-casefold normalization of
both inputs — equal normalized inputs yield equal identifiers — and in
particular the id of ("iPhone", "REF-1") equals the id of
("IPHONE", " ref-1 "); the function is pure with no error conditions. -/
theorem generate_id_normalization :
    (∀ n1 r1 n2 r2 : String, normalize n1 = normalize n2 →
      normalize r1 = normalize r2 → GenerateProductID n1 r1 = GenerateProductID n2 r2) ∧
    GenerateProductID "iPhone" "REF-1" = GenerateProductID "IPHONE" " ref-1 " := by
  have main : ∀ n1 r1 n2 r2 : String, normalize n1 = normalize n2 →
      normalize r1 = normalize r2 → GenerateProductID n1 r1 = GenerateProductID n2 r2 := by
    intro n1 r1 n2 r2 h1 h2
    unfold GenerateProductID
    rw [h1, h2]
  exact ⟨main, main _ _ _ _ (by decide) (by decide)⟩

theorem generate_id_normalization_witness :
    GenerateProductID "Desk" "REF-D1" = GenerateProductID "  DESK " "ref-d1" :=
  generate_id_normalization.1 "Desk" "REF-D1" "  DESK " "ref-d1" (by decide) (by decide)

/-- C8: on a full cache hit (as many fetched products as index ids) the
list and search-by-name use cases return the in-memory pagination of
the cached result set — the slice from offset of at most limit
elements, clamped to the set's bounds — for every limit and offset a
request can carry (the handler's getPagination admits only
1 ≤ limit ≤ 100 and 0 ≤ offset). -/
theorem full_hit_in_memory_pagination
    (lq oq : Option Int) (ids : List String) (ps : List Product)
    (dbRes : Except Unit (List Product))
    (hne : ids ≠ []) (hlen : ps.length = ids.length) :
    listExecute (.ok ids) (.ok ps) dbRes (getPagination lq oq).1 (getPagination lq oq).2
      = some (.ok (clampedSlice ps (getPagination lq oq).1 (getPagination lq oq).2)) ∧
    searchByNameExecute (.ok ids) (.ok ps) dbRes
        (getPagination lq oq).1 (getPagination lq oq).2
      = some (.ok (clampedSlice ps (getPagination lq oq).1 (getPagination lq oq).2)) := by
  obtain ⟨hl1, hl100, ho⟩ := getPagination_bounds lq oq
  have hlen0 : ids.length ≠ 0 := fun h => hne (List.length_eq_zero.mp h)
  have hps0 : 0 < ps.length := by omega
  have hlt : ¬ ps.length < ids.length := by omega
  have hpag := paginate_eq_clamped ps (getPagination lq oq).1 (getPagination lq oq).2
    (by omega) ho
  constructor
  · unfold listExecute listGetFromCache
    simp [hlen0, hlt, hps0, hpag]
  · unfold searchByNameExecute searchInCache
    simp [hlen0, hlt, hps0, hpag]

theorem full_hit_in_memory_pagination_witness :
    listExecute (.ok ["a"]) (.ok [sampleProduct]) (.ok [])
        (getPagination (some 10) (some 0)).1 (getPagination (some 10) (some 0)).2
      = some (.ok (clampedSlice [sampleProduct]
          (getPagination (some 10) (some 0)).1 (getPagination (some 10) (some 0)).2)) ∧
    searchByNameExecute (.ok ["a"]) (.ok [sampleProduct]) (.ok [])
        (getPagination (some 10) (some 0)).1 (getPagination (some 10) (some 0)).2
      = some (.ok (clampedSlice [sampleProduct]
          (getPagination (some 10) (some 0)).1 (getPagination (some 10) (some 0)).2)) :=
  full_hit_in_memory_pagination (some 10) (some 0) ["a"] [sampleProduct] (.ok [])
    (by decide) (by decide)

/-- C9 counterexample: two products whose specifications share the key
"dims" bound on both sides to a non-comparable nested map, yet whose
comparison does not panic — it returns false, because the name check
short-circuits before any specification value is compared.  This
refutes the claim's universal "for every pair ... the comparison
panics". -/
theorem equals_shared_nested_key_no_panic :
    (∃ kv ∈ nestedSpecProduct.Specifications, kv.2.isComparable = false) ∧
    (∃ kv ∈ nestedSpecOtherName.Specifications, kv.2.isComparable = false) ∧
    nestedSpecProduct.Specifications.map Prod.fst
      = nestedSpecOtherName.Specifications.map Prod.fst ∧
    productEquals nestedSpecProduct nestedSpecOtherName = some false := by
  refine ⟨?_, ?_, ?_, ?_⟩ <;> decide

/-- C9 (amended): comparing a product against a business-equal copy —
exactly the scenario of Create's idempotency probe and Update's no-op
check — panics whenever the specifications bind some key (keys
distinct, as Go maps guarantee) to a non-comparable nested value, and
the panic propagates out of both use cases; hence those checks are not
total over the documented data model. -/
theorem equals_not_total_on_nested_specs :
    (∀ p : Product, (p.Specifications.map Prod.fst).Nodup →
        (∃ kv ∈ p.Specifications, kv.2.isComparable = false) →
        productEquals p p = none) ∧
    (∀ (i : CreateProductInput) (now : Int) (cached p : Product) (sc : RepoCreateRes),
        NewProduct i now = .ok p → productEquals p cached = none →
        createExecute i now (.ok (some cached)) sc = none) ∧
    (∀ (current : Product) (i : UpdateProductInput) (now : Int) (su : RepoUpdateRes),
        validateProduct (current.applyUpdate i now) = none →
        productEquals current (current.applyUpdate i now) = none →
        updateExecute (.ok current) i now su = none) := by
  refine ⟨productEquals_self_none, ?_, ?_⟩
  · intro i now cached p sc hnew heq
    unfold createExecute
    rw [hnew]
    simp [heq]
  · intro current i now su hval heq
    unfold updateExecute
    simp [hval, heq]

theorem equals_not_total_on_nested_specs_witness :
    productEquals nestedSpecProduct nestedSpecProduct = none ∧
    createExecute nestedSpecInput sampleNow (.ok (some nestedSpecProduct))
      RepoCreateRes.ok = none :=
  ⟨equals_not_total_on_nested_specs.1 nestedSpecProduct (by decide) (by decide),
   equals_not_total_on_nested_specs.2.1 nestedSpecInput sampleNow nestedSpecProduct
     nestedSpecProduct RepoCreateRes.ok (by rfl)
     (equals_not_total_on_nested_specs.1 nestedSpecProduct (by decide) (by decide))⟩

/-- C10: the search-by-name cache path and store path are not
set-equivalent.  With a fully populated cache over a store holding
"Phone" and "Phone Case", the query "Phone" returns only the exact
normalized-name match on the cache path but both substring matches on
the store path — different product sets, not merely different
orderings. -/
theorem search_paths_diverge :
    populatedNameSearch divWorld "Phone" 50 0 = some (.ok [divPhone]) ∧
    pgFindByName divWorld "Phone" 50 0 = [divPhone, divPhoneCase] ∧
    ¬ ([divPhone].map Product.ID).Perm
        ((pgFindByName divWorld "Phone" 50 0).map Product.ID) := by
  have h2 : pgFindByName divWorld "Phone" 50 0 = [divPhone, divPhoneCase] := by rfl
  refine ⟨by rfl, h2, ?_⟩
  intro hperm
  have hlen := hperm.length_eq
  rw [h2] at hlen
  simp at hlen

end ProductCatalog
